import Mathlib

/-!
Shallow embedding of the authentication/token-lifecycle core of the
fullstack-template repository.

Two Python trees are embedded:
* `src/stacks/fastapi-react/examples/minimal-production/backend/app/` —
  its `core/security.py` (password hashing and verification),
  `core/exceptions.py` and `core/dependencies.py` are embedded directly
  from source.
* `src/backend/src/` — its `services/auth.py`,
  `repositories/user.py` and `routes/auth.py` are embedded directly from
  source.  Its `core/security.py`, `core/exceptions.py`,
  `models/User.py` and `repositories/refresh_token.py` are imported by
  the service layer but are not part of the extract; those pieces are
  modelled from the specification and are marked as such in their doc
  comments.

Python exceptions are embedded as `Except` error values; the database
session is embedded as explicit lists of user and refresh-token rows
that every operation threads through.  Wall-clock time, freshly
generated ids and freshly generated random token material are passed in
as explicit parameters.
-/

namespace FullstackTemplate

/-- A user row.  Embeds the `users` table of the backend tree: the spec
(§3) and `src/backend/src/repositories/user.py` show the fields
`id`, `email`, `hashed_password`, `is_active` and a monotonically
increasing `token_version`. -/
structure UserRec where
  id : Nat
  email : String
  hashed_password : String
  is_active : Bool
  token_version : Nat
deriving DecidableEq

/-- A refresh-token row.  Embeds the `refresh_tokens` table described in
spec §3: `id`, `user_id`, `token_hash`, `family_id`, `expires_at` and a
`revoked` flag (device metadata is omitted: no embedded operation reads
it). -/
structure RefreshTokenRec where
  rid : Nat
  user_id : Nat
  token_hash : String
  family_id : Nat
  expires_at : Nat
  revoked : Bool
deriving DecidableEq

/-- An application exception value: class name, message and HTTP status,
exactly the data carried by `BaseAppException` in
`minimal-production/backend/app/core/exceptions.py`. -/
structure AppException where
  name : String
  message : String
  status_code : Nat
deriving DecidableEq

/-- `InvalidCredentials()` from `app/core/exceptions.py` lines 127-135:
fixed message "Invalid email or password", status 401. -/
def invalidCredentialsExc : AppException :=
  ⟨"InvalidCredentials", "Invalid email or password", 401⟩

/-- `TokenError(message)` from `app/core/exceptions.py` lines 80-90:
status 401, caller-supplied message. -/
def tokenErrorExc (message : String) : AppException :=
  ⟨"TokenError", message, 401⟩

/-- Modelled from the spec: the backend tree's
`src/core/exceptions.py` (not in the extract) defines
`TokenRevokedError`, raised on replay detection; spec §7 fixes its kind
(`TokenRevoked`) and status 401.  The message text is representative. -/
def tokenRevokedExc : AppException :=
  ⟨"TokenRevokedError", "Token has been revoked", 401⟩

/-- `UserNotFound(identifier)` from `app/core/exceptions.py` lines
93-107: status 404.  The source message wraps the identifier in single
quotes inside an f-string; the quotes are elided here. -/
def userNotFoundExc (identifier : String) : AppException :=
  ⟨"UserNotFound", "User with id " ++ identifier ++ " not found", 404⟩

/-! ## PasswordHasher (`app/core/security.py`)

`pwdlib.PasswordHash.recommended()` is an external Argon2id library; it
is embedded as an abstract record of its two methods used by the source.
`verifyAndUpdate` returns `Except`: `Except.error` embeds the library
raising an exception (malformed hash string, etc.). -/

structure PasswordHasher where
  hash : String → String
  verifyAndUpdate : String → String → Except String (Bool × Option String)

/-- One call the security module makes into the hashing library; used to
observe which verifications a code path performs. -/
inductive HashOp where
  | verifyOp (plain : String) (hashed : String)
  | verifyAndUpdateOp (plain : String) (hashed : String)
deriving DecidableEq

/-- `hash_password` (`security.py` lines 27-31): delegates to
`password_hasher.hash` (the `asyncio.to_thread` offload is pure
scheduling and has no value-level effect). -/
def hash_password (H : PasswordHasher) (password : String) : String :=
  H.hash password

/-- `verify_password` (`security.py` lines 34-47): calls
`password_hasher.verify_and_update` inside `try`; any exception is
swallowed and `(False, None)` is returned.  Also returns the list of
library calls performed. -/
def verify_password (H : PasswordHasher) (plain_password : String)
    (hashed_password : String) : (Bool × Option String) × List HashOp :=
  (match H.verifyAndUpdate plain_password hashed_password with
    | Except.ok r => r
    | Except.error _ => (false, none),
   [HashOp.verifyAndUpdateOp plain_password hashed_password])

/-- `DUMMY_HASH` (`security.py` lines 50-52): a fixed hash of a fixed
string, precomputed at module load. -/
def DUMMY_HASH (H : PasswordHasher) : String :=
  H.hash "dummy_password_for_timing_attack_prevention"

/-- `verify_password_with_timing_safety` (`security.py` lines 55-70):
with no stored hash, runs `password_hasher.verify(plain, DUMMY_HASH)`
(result discarded) and returns `(False, None)`; otherwise defers to
`verify_password`. -/
def verify_password_with_timing_safety (H : PasswordHasher)
    (plain_password : String) (hashed_password : Option String) :
    (Bool × Option String) × List HashOp :=
  match hashed_password with
  | none => ((false, none), [HashOp.verifyOp plain_password (DUMMY_HASH H)])
  | some h => verify_password H plain_password h

/-- A concrete stand-in hashing library used to witness theorems whose
hypotheses quantify over the abstract hasher. -/
def toyHasher : PasswordHasher where
  hash := fun p => "argon2id$" ++ p
  verifyAndUpdate := fun q h =>
    Except.ok (decide (h = "argon2id$" ++ q), none)

/-! ## TokenCodec

The backend tree's `src/core/security.py` is imported by
`src/backend/src/services/auth.py` but is not part of the extract;
its token functions are modelled from spec §4.2. -/

/-- The claim set of an access token: `{sub, type, iat, exp, ver}` plus
extra claims (spec §4.2). -/
structure AccessClaims where
  sub : Nat
  type : String
  iat : Nat
  exp : Nat
  ver : Nat
  extra : List (String × String)
deriving DecidableEq

/-- A signed access token: claim set plus symmetric-MAC signature. -/
structure SignedToken where
  payload : AccessClaims
  sig : String
deriving DecidableEq

/-- Modelled from the spec: the symmetric MAC (HS256-class) over the
claim set, keyed by the server secret — a deterministic function of the
secret and every claim. -/
def macSign (secret : String) (c : AccessClaims) : String :=
  "HS256$" ++ secret ++ "$" ++ toString c.sub ++ "$" ++ c.type ++ "$" ++
    toString c.iat ++ "$" ++ toString c.exp ++ "$" ++ toString c.ver ++
    c.extra.foldl (fun acc p => acc ++ "$" ++ p.1 ++ ":" ++ p.2) ""

/-- Modelled from the spec: the backend tree's
`create_access_token(user_id, token_version, extra_claims?)`
(`src/core/security.py`, not in the extract; called at
`services/auth.py` lines 66 and 153): builds
`{sub: user_id, type: "access", iat: now, exp: now + TTL,
ver: token_version, ...extra}` and signs it with the server secret. -/
def create_access_token (secret : String) (now ttl : Nat)
    (user_id token_version : Nat) (extra : List (String × String)) :
    SignedToken :=
  let payload : AccessClaims :=
    { sub := user_id, type := "access", iat := now, exp := now + ttl,
      ver := token_version, extra := extra }
  { payload := payload, sig := macSign secret payload }

/-- Modelled from the spec: `decode_access_token` (spec §4.2) verifies
the signature and fails on signature mismatch or expiry; on success it
returns the claim set. -/
def decode_access_token (secret : String) (now : Nat) (t : SignedToken) :
    Except AppException AccessClaims :=
  if t.sig ≠ macSign secret t.payload then
    Except.error (tokenErrorExc "Signature verification failed")
  else if t.payload.exp ≤ now then
    Except.error (tokenErrorExc "Signature has expired")
  else
    Except.ok t.payload

/-- Modelled from the spec: the backend tree's
`hash_token(raw_token)` (`src/core/security.py`, not in the extract):
a deterministic one-way hash (SHA-256 class) of the raw opaque token. -/
def hash_token (raw_token : String) : String :=
  "sha256$" ++ raw_token

/-- Modelled from the spec: the backend tree's
`issue_refresh_token(user_id, family_id)` (spec §4.2): returns the raw
high-entropy opaque value (supplied here as the explicit `entropy`
parameter), its one-way hash, and an expiry computed from the refresh
TTL.  `user_id` and `family_id` do not enter the opaque value. -/
def create_refresh_token (user_id family_id : Nat) (entropy : String)
    (now ttl : Nat) : String × String × Nat :=
  (entropy, hash_token entropy, now + ttl)

/-! ## RefreshTokenStore

`src/backend/src/repositories/refresh_token.py` is imported by the
service layer but is not part of the extract; its operations are
modelled from spec §4.3 over an explicit list of rows. -/

/-- Modelled from the spec: lazy time-based expiry — the
`is_expired` property read at `services/auth.py` line 141 (spec §4.3,
`LIVE -> EXPIRED(time-based, detected lazily at read)`). -/
def is_expired (now : Nat) (r : RefreshTokenRec) : Bool :=
  decide (r.expires_at ≤ now)

/-- A record is live iff not revoked and not expired (spec §3). -/
def liveTok (now : Nat) (r : RefreshTokenRec) : Bool :=
  !r.revoked && !is_expired now r

/-- Modelled from the spec: `get_by_hash(token_hash) -> record | absent`
(spec §4.3); `token_hash` is a unique lookup key. -/
def get_by_hash (ts : List RefreshTokenRec) (h : String) :
    Option RefreshTokenRec :=
  ts.find? (fun r => decide (r.token_hash = h))

/-- Modelled from the spec: `revoke(record)` (spec §4.3) marks the single
record (identified by its primary key) revoked. -/
def revoke_token (ts : List RefreshTokenRec) (rid : Nat) :
    List RefreshTokenRec :=
  ts.map (fun r => if r.rid = rid then { r with revoked := true } else r)

/-- Modelled from the spec: `revoke_family(family_id)` (spec §4.3) marks
every record sharing `family_id` revoked. -/
def revoke_family (ts : List RefreshTokenRec) (family_id : Nat) :
    List RefreshTokenRec :=
  ts.map (fun r =>
    if r.family_id = family_id then { r with revoked := true } else r)

/-- Modelled from the spec: `create(...)` (spec §4.3) inserts a new live
token row. -/
def create_token (ts : List RefreshTokenRec) (rec : RefreshTokenRec) :
    List RefreshTokenRec :=
  ts ++ [rec]

/-- Bool predicate: record belongs to `uid` and is live at `now`. -/
def userLive (now uid : Nat) (r : RefreshTokenRec) : Bool :=
  decide (r.user_id = uid) && liveTok now r

/-- Modelled from the spec: `revoke_all_for_user(user_id) -> count`
(spec §4.3) marks every live record of the user revoked and returns the
count revoked. -/
def revoke_all_user_tokens (now : Nat) (ts : List RefreshTokenRec)
    (uid : Nat) : List RefreshTokenRec × Nat :=
  (ts.map (fun r => if userLive now uid r then { r with revoked := true } else r),
   (ts.filter (userLive now uid)).length)

/-! ## UserRepository (`src/backend/src/repositories/user.py`) -/

/-- `get_by_email` (`user.py` lines 20-32): select by unique email. -/
def get_by_email (users : List UserRec) (email : String) : Option UserRec :=
  users.find? (fun u => decide (u.email = email))

/-- `get_by_id` (`user.py` lines 34-43): select by primary key. -/
def get_by_id (users : List UserRec) (uid : Nat) : Option UserRec :=
  users.find? (fun u => decide (u.id = uid))

/-- `update_password` (`user.py` lines 80-94): sets the new hash and
increments `token_version` (the `User.increment_token_version` model
method is not in the extract; modelled from spec §3, monotonically
increasing version).  Returns the updated table and the updated user. -/
def update_password (users : List UserRec) (u : UserRec)
    (hashed_password : String) : List UserRec × UserRec :=
  let u' := { u with hashed_password := hashed_password,
                     token_version := u.token_version + 1 }
  (users.map (fun x => if x.id = u.id then u' else x), u')

/-- `increment_token_version` (`user.py` lines 96-108): invalidates all
user tokens by bumping `token_version` (model method modelled from
spec §3). -/
def increment_token_version (users : List UserRec) (u : UserRec) :
    List UserRec × UserRec :=
  let u' := { u with token_version := u.token_version + 1 }
  (users.map (fun x => if x.id = u.id then u' else x), u')

/-! ## AuthService (`src/backend/src/services/auth.py`)

The database session is embedded as the pair of row lists; wall-clock
time (`now`), configured TTLs, fresh primary keys / family ids and
fresh random token material are explicit parameters.  The failure
result of each operation carries the (possibly updated) store, since
replay detection persists its family revocation before raising. -/

/-- `AuthService.authenticate` (`auth.py` lines 36-82): look up by
email, timing-safe verify (absent user feeds `None` into the verifier),
raise `InvalidCredentials` on invalid password / absent user / inactive
user, persist an upgraded hash when offered, then issue an access token
and start a new refresh-token family.  The source guards the first two
failure causes with one condition, `not is_valid or user is None`;
the embedding splits it over the `Option` match, preserving the result.
Returns the updated tables and `(access_token, raw_refresh, user)`. -/
def authenticate (H : PasswordHasher) (secret : String)
    (now ttlAccess ttlRefresh : Nat)
    (users : List UserRec) (ts : List RefreshTokenRec)
    (freshFam freshRid : Nat) (entropy : String)
    (email password : String) :
    (List UserRec × List RefreshTokenRec) ×
      Except AppException (SignedToken × String × UserRec) :=
  let user? := get_by_email users email
  let hashed_password := user?.map UserRec.hashed_password
  let vr := verify_password_with_timing_safety H password hashed_password
  let is_valid := vr.1.1
  let new_hash := vr.1.2
  match user? with
  | none => ((users, ts), Except.error invalidCredentialsExc)
  | some user =>
    if is_valid = false then ((users, ts), Except.error invalidCredentialsExc)
    else if user.is_active = false then
      ((users, ts), Except.error invalidCredentialsExc)
    else
      let (users', user') :=
        match new_hash with
        | some nh => update_password users user nh
        | none => (users, user)
      let access_token :=
        create_access_token secret now ttlAccess user'.id user'.token_version []
      let (raw_refresh, token_hash, expires_at) :=
        create_refresh_token user'.id freshFam entropy now ttlRefresh
      let ts' := create_token ts
        { rid := freshRid, user_id := user'.id, token_hash := token_hash,
          family_id := freshFam, expires_at := expires_at, revoked := false }
      ((users', ts'), Except.ok (access_token, raw_refresh, user'))

/-- `AuthService.refresh_tokens` (`auth.py` lines 112-170): hash the
presented token and look it up; absent ⇒ `TokenError`; already revoked ⇒
revoke the whole family and raise `TokenRevokedError`; expired ⇒
`TokenError`; owner absent or inactive ⇒ `TokenError`; otherwise revoke
the presented record, issue an access token, and insert a successor
refresh token in the same family.  Returns the updated token table and
the outcome. -/
def refresh_tokens (secret : String) (users : List UserRec)
    (ts : List RefreshTokenRec) (now ttlAccess ttlRefresh : Nat)
    (freshRid : Nat) (entropy : String) (refresh_token : String) :
    List RefreshTokenRec × Except AppException SignedToken :=
  let token_hash := hash_token refresh_token
  match get_by_hash ts token_hash with
  | none => (ts, Except.error (tokenErrorExc "Invalid refresh token"))
  | some stored_token =>
    if stored_token.revoked then
      (revoke_family ts stored_token.family_id, Except.error tokenRevokedExc)
    else if is_expired now stored_token then
      (ts, Except.error (tokenErrorExc "Refresh token expired"))
    else
      match get_by_id users stored_token.user_id with
      | none => (ts, Except.error (tokenErrorExc "User not found or inactive"))
      | some user =>
        if user.is_active = false then
          (ts, Except.error (tokenErrorExc "User not found or inactive"))
        else
          let ts1 := revoke_token ts stored_token.rid
          let access_token :=
            create_access_token secret now ttlAccess user.id user.token_version []
          let (_, new_hash, expires_at) :=
            create_refresh_token user.id stored_token.family_id entropy now
              ttlRefresh
          let ts2 := create_token ts1
            { rid := freshRid, user_id := user.id, token_hash := new_hash,
              family_id := stored_token.family_id, expires_at := expires_at,
              revoked := false }
          (ts2, Except.ok access_token)

/-- `AuthService.logout` (`auth.py` lines 172-192): hash, look up,
revoke only when the record exists and is not yet revoked; absent or
already-revoked is a silent success.  The operation cannot fail: its
result is just the updated token table. -/
def logout (ts : List RefreshTokenRec) (refresh_token : String) :
    List RefreshTokenRec :=
  let token_hash := hash_token refresh_token
  match get_by_hash ts token_hash with
  | none => ts
  | some stored_token =>
    if stored_token.revoked then ts
    else revoke_token ts stored_token.rid

/-- `AuthService.logout_all` (`auth.py` lines 194-208): bump the user's
`token_version`, then revoke every live refresh token of the user and
return the revoked count. -/
def logout_all (now : Nat) (users : List UserRec)
    (ts : List RefreshTokenRec) (u : UserRec) :
    (List UserRec × UserRec) × List RefreshTokenRec × Nat :=
  let (users', u') := increment_token_version users u
  let (ts', count) := revoke_all_user_tokens now ts u.id
  ((users', u'), ts', count)

/-! ## Current-user resolution (backend tree)

The backend tree's `src/core/dependencies.py` (providing `CurrentUser`
consumed by `src/backend/src/routes/auth.py`) is not in the extract. -/

/-- Modelled from the spec: the backend tree's `get_current_user`
dependency.  Spec §4.2 requires the caller of the codec to reject a
decoded token when `type != "access"` and when
`claims.ver != user.token_version`; both are token errors (401).  The
structure follows the extract's minimal-production
`app/core/dependencies.py` lines 39-61 (decode, wrap decode failures in
`TokenError`, check `type`, load the user), extended with the
version check the spec assigns to this layer. -/
def get_current_user (secret : String) (now : Nat) (users : List UserRec)
    (t : SignedToken) : Except AppException UserRec :=
  match decode_access_token secret now t with
  | Except.error e => Except.error (tokenErrorExc e.message)
  | Except.ok payload =>
    if payload.type ≠ "access" then
      Except.error (tokenErrorExc "Invalid token type")
    else
      match get_by_id users payload.sub with
      | none => Except.error (userNotFoundExc (toString payload.sub))
      | some user =>
        if payload.ver ≠ user.token_version then
          Except.error (tokenErrorExc "Token version mismatch")
        else
          Except.ok user

/-- A concrete user row used by witness theorems; its stored hash is
`toyHasher.hash "Passw0rd!"`. -/
def demoUser : UserRec :=
  ⟨1, "alice@example.com", "argon2id$Passw0rd!", true, 0⟩

end FullstackTemplate

namespace FullstackTemplate

/-- C8: for every hasher and plaintext, `verify_password_with_timing_safety`
with an absent stored hash performs exactly one dummy verification
against the fixed precomputed `DUMMY_HASH` and returns
`valid = false` with no upgraded hash — in particular it never returns
`valid = true` on this branch. -/
theorem timing_safety_absent_hash (H : PasswordHasher) (plain : String) :
    verify_password_with_timing_safety H plain none =
      ((false, none), [HashOp.verifyOp plain (DUMMY_HASH H)]) := by
  rfl

/-- C10: `verify_password` is total at its interface: for every hasher,
plaintext and stored-hash string, either the underlying
`verify_and_update` succeeds and its result is returned, or it raises
and `(false, none)` is returned — the exception never escapes. -/
theorem verify_password_total (H : PasswordHasher) (plain hashed : String) :
    (∃ r, H.verifyAndUpdate plain hashed = Except.ok r ∧
        (verify_password H plain hashed).1 = r) ∨
    (∃ e, H.verifyAndUpdate plain hashed = Except.error e ∧
        (verify_password H plain hashed).1 = (false, none)) := by
  cases h : H.verifyAndUpdate plain hashed with
  | ok r => exact Or.inl ⟨r, rfl, by simp [verify_password, h]⟩
  | error e => exact Or.inr ⟨e, rfl, by simp [verify_password, h]⟩

/-- C9: round-trip — for every password within the configured length
bounds, verifying the password against the string produced by
`hash_password` on the same password yields `valid = true`, given the
Argon2id library's own guarantee that `verify_and_update` accepts a
hash it produced. -/
theorem hash_verify_roundtrip (H : PasswordHasher) (password : String)
    (minLen maxLen : Nat) (upgraded : Option String)
    (hlen : minLen ≤ password.length ∧ password.length ≤ maxLen)
    (hlib : H.verifyAndUpdate password (H.hash password) =
      Except.ok (true, upgraded)) :
    ((verify_password H password (hash_password H password)).1).1 = true := by
  simp [verify_password, hash_password, hlib]

theorem hash_verify_roundtrip_witness :
    ((verify_password toyHasher "Passw0rd!"
        (hash_password toyHasher "Passw0rd!")).1).1 = true :=
  hash_verify_roundtrip toyHasher "Passw0rd!" 8 64 none
    (by decide) (by rfl)

/-! ## Helper lemmas -/

lemma two_le_length_of_mem {α : Type} :
    ∀ (l : List α) (a b : α), a ∈ l → b ∈ l → a ≠ b → 2 ≤ l.length := by
  intro l
  induction l with
  | nil => intro a b ha _ _; cases ha
  | cons c t ih =>
    intro a b ha hb hne
    rcases List.mem_cons.mp ha with rfl | hat
    · rcases List.mem_cons.mp hb with rfl | hbt
      · exact absurd rfl hne
      · have h1 := List.length_pos_of_mem hbt
        simp only [List.length_cons]
        omega
    · rcases List.mem_cons.mp hb with rfl | hbt
      · have h1 := List.length_pos_of_mem hat
        simp only [List.length_cons]
        omega
      · have h2 := ih a b hat hbt hne
        simp only [List.length_cons]
        omega

lemma find?_map_pres {α : Type} (f : α → α) (p : α → Bool)
    (hp : ∀ a, p (f a) = p a) :
    ∀ l : List α, (l.map f).find? p = (l.find? p).map f := by
  intro l
  induction l with
  | nil => rfl
  | cons a t ih =>
    by_cases hpa : p a = true
    · have hfa : p (f a) = true := (hp a).trans hpa
      rw [List.map_cons, List.find?_cons_of_pos _ hfa,
        List.find?_cons_of_pos _ hpa]
      rfl
    · have hfa : ¬ p (f a) = true := fun h => hpa ((hp a).symm.trans h)
      rw [List.map_cons, List.find?_cons_of_neg _ hfa,
        List.find?_cons_of_neg _ hpa, ih]

lemma filter_nil_of {α : Type} (p : α → Bool) :
    ∀ l : List α, (∀ a ∈ l, p a = false) → l.filter p = [] := by
  intro l
  induction l with
  | nil => intro _; rfl
  | cons a t ih =>
    intro h
    rw [List.filter_cons, h a (List.mem_cons_self a t)]
    exact ih fun b hb => h b (List.mem_cons_of_mem a hb)

lemma map_congr_mem {α β : Type} (f g : α → β) :
    ∀ l : List α, (∀ a ∈ l, f a = g a) → l.map f = l.map g := by
  intro l
  induction l with
  | nil => intro _; rfl
  | cons a t ih =>
    intro h
    rw [List.map_cons, List.map_cons, h a (List.mem_cons_self a t),
      ih fun b hb => h b (List.mem_cons_of_mem a hb)]

/-! ## Claim theorems: service layer -/

/-- C7: logout is idempotent — for every token table and raw refresh
token, a second `logout` with the same token leaves the table exactly
as after the first; and `logout` is total (it returns a table and has
no failure outcome), so it succeeds whether the record is live, already
revoked, or absent. -/
theorem logout_idempotent (ts : List RefreshTokenRec)
    (refresh_token : String) :
    logout (logout ts refresh_token) refresh_token =
      logout ts refresh_token := by
  cases h : get_by_hash ts (hash_token refresh_token) with
  | none =>
    have h1 : logout ts refresh_token = ts := by simp [logout, h]
    rw [h1, h1]
  | some st =>
    by_cases hrev : st.revoked = true
    · have h1 : logout ts refresh_token = ts := by simp [logout, h, hrev]
      rw [h1, h1]
    · have h1 : logout ts refresh_token = revoke_token ts st.rid := by
        simp [logout, h, hrev]
      have hpres : ∀ r : RefreshTokenRec,
          (decide (((fun x : RefreshTokenRec =>
              if x.rid = st.rid then { x with revoked := true } else x) r).token_hash
            = hash_token refresh_token) : Bool)
          = decide (r.token_hash = hash_token refresh_token) := by
        intro r
        by_cases hr : r.rid = st.rid <;> simp [hr]
      have h2 : get_by_hash (revoke_token ts st.rid) (hash_token refresh_token)
          = some { st with revoked := true } := by
        unfold get_by_hash revoke_token
        rw [find?_map_pres _ _ hpres ts]
        have : ts.find? (fun r => decide (r.token_hash = hash_token refresh_token))
            = some st := h
        rw [this]
        simp
      rw [h1]
      simp [logout, h2]

/-- C6: for every user, `logout_all` strictly increments the user's
`token_version` (so any access-token claim set carrying the old `ver`
no longer matches), revokes every live refresh token of that user
(none remains live), inserts nothing, and returns exactly the number N
of live tokens the user had. -/
theorem logout_all_spec (now : Nat) (users : List UserRec)
    (ts : List RefreshTokenRec) (u : UserRec) :
    (logout_all now users ts u).1.2.token_version = u.token_version + 1 ∧
    (logout_all now users ts u).2.2 =
      (ts.filter (userLive now u.id)).length ∧
    (logout_all now users ts u).2.1.filter (userLive now u.id) = [] ∧
    (logout_all now users ts u).2.1.length = ts.length ∧
    (∀ c : AccessClaims, c.ver = u.token_version →
      c.ver ≠ (logout_all now users ts u).1.2.token_version) := by
  refine ⟨rfl, rfl, ?_, ?_, ?_⟩
  · apply filter_nil_of
    intro r hr
    rcases List.mem_map.mp hr with ⟨r0, _, rfl⟩
    by_cases hc : userLive now u.id r0 = true
    · rw [if_pos hc]
      simp [userLive, liveTok]
    · rw [if_neg hc]
      exact Bool.not_eq_true _ ▸ hc
  · exact List.length_map _ _
  · intro c hc
    rw [hc]
    show u.token_version ≠ u.token_version + 1
    omega

/-- C1: if the presented refresh token hashes to a stored record that is
already revoked, `refresh_tokens` revokes every record sharing that
record's `family_id`, fails with `TokenRevokedError`, and issues no new
token (the table keeps exactly the same hashes and length). -/
theorem refresh_replay_kills_family (secret : String)
    (users : List UserRec) (ts : List RefreshTokenRec)
    (now ttlAccess ttlRefresh freshRid : Nat)
    (entropy refresh_token : String) (st : RefreshTokenRec)
    (hfind : get_by_hash ts (hash_token refresh_token) = some st)
    (hrev : st.revoked = true) :
    (refresh_tokens secret users ts now ttlAccess ttlRefresh freshRid
        entropy refresh_token).2 = Except.error tokenRevokedExc ∧
    (∀ r ∈ (refresh_tokens secret users ts now ttlAccess ttlRefresh freshRid
        entropy refresh_token).1,
      r.family_id = st.family_id → r.revoked = true) ∧
    (refresh_tokens secret users ts now ttlAccess ttlRefresh freshRid
        entropy refresh_token).1.map RefreshTokenRec.token_hash =
      ts.map RefreshTokenRec.token_hash ∧
    (refresh_tokens secret users ts now ttlAccess ttlRefresh freshRid
        entropy refresh_token).1.length = ts.length := by
  have hout : refresh_tokens secret users ts now ttlAccess ttlRefresh freshRid
      entropy refresh_token =
      (revoke_family ts st.family_id, Except.error tokenRevokedExc) := by
    simp [refresh_tokens, hfind, hrev]
  rw [hout]
  refine ⟨rfl, ?_, ?_, ?_⟩
  · intro r hr hf
    rcases List.mem_map.mp hr with ⟨r0, _, rfl⟩
    by_cases h0 : r0.family_id = st.family_id
    · rw [if_pos h0]
    · rw [if_neg h0] at hf ⊢
      exact absurd hf h0
  · rw [revoke_family, List.map_map]
    apply map_congr_mem
    intro a _
    by_cases h0 : a.family_id = st.family_id <;> simp [h0]
  · exact List.length_map _ _

theorem refresh_replay_kills_family_witness :
    (refresh_tokens "s" [] [⟨10, 1, hash_token "tok", 5, 100, true⟩]
        0 10 100 11 "ent" "tok").2 = Except.error tokenRevokedExc :=
  (refresh_replay_kills_family "s" [] [⟨10, 1, hash_token "tok", 5, 100, true⟩]
      0 10 100 11 "ent" "tok" ⟨10, 1, hash_token "tok", 5, 100, true⟩
      rfl rfl).1

/-- C2: from a state where the presented record is the family's only
live token (the family invariant) and the refresh succeeds (record
found, not revoked, not expired, owner present and active, fresh
primary key, positive refresh TTL), the operation returns a fresh
access token for the owner, marks the presented record revoked, and
leaves the successor — same `family_id`, hash of the fresh entropy,
fresh expiry — as the family's unique live member. -/
theorem refresh_rotation_invariant (secret : String)
    (users : List UserRec) (ts : List RefreshTokenRec)
    (now ttlAccess ttlRefresh freshRid : Nat)
    (entropy refresh_token : String) (st : RefreshTokenRec) (u : UserRec)
    (hfind : get_by_hash ts (hash_token refresh_token) = some st)
    (hrev : st.revoked = false)
    (hexp : is_expired now st = false)
    (huser : get_by_id users st.user_id = some u)
    (hact : u.is_active = true)
    (hinv : (ts.filter (fun r =>
        decide (r.family_id = st.family_id) && liveTok now r)).length ≤ 1)
    (hfresh : ∀ r ∈ ts, r.rid ≠ freshRid)
    (httl : 0 < ttlRefresh) :
    (refresh_tokens secret users ts now ttlAccess ttlRefresh freshRid
        entropy refresh_token).2 =
      Except.ok (create_access_token secret now ttlAccess u.id
        u.token_version []) ∧
    (∀ r ∈ (refresh_tokens secret users ts now ttlAccess ttlRefresh freshRid
        entropy refresh_token).1,
      r.rid = st.rid → r.revoked = true) ∧
    (refresh_tokens secret users ts now ttlAccess ttlRefresh freshRid
        entropy refresh_token).1.filter (fun r =>
          decide (r.family_id = st.family_id) && liveTok now r) =
      [⟨freshRid, u.id, hash_token entropy, st.family_id,
        now + ttlRefresh, false⟩] := by
  have hstmem : st ∈ ts := List.mem_of_find?_eq_some hfind
  have hstlive : liveTok now st = true := by
    simp [liveTok, hrev, hexp]
  have hstp : (decide (st.family_id = st.family_id) && liveTok now st) = true := by
    simp [hstlive]
  have hkey : ∀ r0 ∈ ts,
      (decide (r0.family_id = st.family_id) && liveTok now r0) = true →
      r0 = st := by
    intro r0 hr0 hp
    by_contra hne
    have h2 := two_le_length_of_mem
      (ts.filter (fun r => decide (r.family_id = st.family_id) && liveTok now r))
      r0 st (List.mem_filter.mpr ⟨hr0, hp⟩) (List.mem_filter.mpr ⟨hstmem, hstp⟩)
      hne
    omega
  have hout : refresh_tokens secret users ts now ttlAccess ttlRefresh freshRid
      entropy refresh_token =
      (create_token (revoke_token ts st.rid)
        ⟨freshRid, u.id, hash_token entropy, st.family_id,
          now + ttlRefresh, false⟩,
       Except.ok (create_access_token secret now ttlAccess u.id
         u.token_version [])) := by
    simp [refresh_tokens, hfind, hrev, hexp, huser, hact,
      create_refresh_token, create_token]
  rw [hout]
  refine ⟨rfl, ?_, ?_⟩
  · intro r hr hrid
    rcases List.mem_append.mp hr with hr1 | hr2
    · rcases List.mem_map.mp hr1 with ⟨r0, _, rfl⟩
      by_cases h0 : r0.rid = st.rid
      · rw [if_pos h0]
      · rw [if_neg h0] at hrid ⊢
        exact absurd hrid h0
    · rcases List.mem_singleton.mp hr2 with rfl
      exact absurd hrid.symm (hfresh st hstmem)
  · rw [create_token, List.filter_append]
    have hleft : (revoke_token ts st.rid).filter (fun r =>
        decide (r.family_id = st.family_id) && liveTok now r) = [] := by
      apply filter_nil_of
      intro r hr
      rcases List.mem_map.mp hr with ⟨r0, hr0, rfl⟩
      by_cases h0 : r0.rid = st.rid
      · rw [if_pos h0]
        simp [liveTok]
      · rw [if_neg h0]
        by_contra hptrue
        have hp : (decide (r0.family_id = st.family_id) && liveTok now r0) = true := by
          cases hb : (decide (r0.family_id = st.family_id) && liveTok now r0) with
          | true => rfl
          | false => exact absurd hb hptrue
        exact h0 (congrArg RefreshTokenRec.rid (hkey r0 hr0 hp))
    rw [hleft, List.nil_append]
    have hnexp : ¬ (now + ttlRefresh ≤ now) := by omega
    simp [List.filter, liveTok, is_expired, hnexp]

theorem refresh_rotation_invariant_witness :
    (refresh_tokens "s" [⟨1, "alice@example.com", "h", true, 3⟩]
        [⟨10, 1, hash_token "tok", 5, 100, false⟩]
        0 10 50 11 "ent" "tok").2 =
      Except.ok (create_access_token "s" 0 10 1 3 []) :=
  (refresh_rotation_invariant "s" [⟨1, "alice@example.com", "h", true, 3⟩]
      [⟨10, 1, hash_token "tok", 5, 100, false⟩] 0 10 50 11 "ent" "tok"
      ⟨10, 1, hash_token "tok", 5, 100, false⟩
      ⟨1, "alice@example.com", "h", true, 3⟩
      rfl rfl rfl rfl rfl (by decide) (by decide) (by decide)).1

/-- C3: every failing login attempt — unknown email, wrong password, or
inactive user — makes `authenticate` fail with the very same
`InvalidCredentials` error value: kind `InvalidCredentials`, message
"Invalid email or password", status 401, identical across the three
causes. -/
theorem authenticate_failure_uniform (H : PasswordHasher)
    (secret : String) (now ttlAccess ttlRefresh : Nat)
    (users : List UserRec) (ts : List RefreshTokenRec)
    (freshFam freshRid : Nat) (entropy email password : String)
    (hfail : get_by_email users email = none ∨
      ∃ u, get_by_email users email = some u ∧
        ((verify_password_with_timing_safety H password
            (some u.hashed_password)).1.1 = false ∨
         ((verify_password_with_timing_safety H password
            (some u.hashed_password)).1.1 = true ∧ u.is_active = false))) :
    (authenticate H secret now ttlAccess ttlRefresh users ts freshFam
        freshRid entropy email password).2 =
      Except.error invalidCredentialsExc ∧
    invalidCredentialsExc.name = "InvalidCredentials" ∧
    invalidCredentialsExc.message = "Invalid email or password" ∧
    invalidCredentialsExc.status_code = 401 := by
  refine ⟨?_, rfl, rfl, rfl⟩
  rcases hfail with hnone | ⟨u, hu, hcause⟩
  · simp [authenticate, hnone]
  · rcases hcause with hv | ⟨hv, hin⟩
    · simp [authenticate, hu, hv]
    · simp [authenticate, hu, hv, hin]

theorem authenticate_failure_uniform_witness :
    (authenticate toyHasher "s" 0 10 100 [] [] 7 11 "ent"
        "alice@example.com" "Passw0rd!").2 =
      Except.error invalidCredentialsExc :=
  (authenticate_failure_uniform toyHasher "s" 0 10 100 [] [] 7 11 "ent"
      "alice@example.com" "Passw0rd!" (Or.inl rfl)).1

/-- C4: the claim set of an issued access token is exactly
`{sub: user_id, type: "access", iat: now, exp: now + TTL,
ver: token_version}` plus the extra claims, and its signature is the
symmetric MAC of that claim set under the server secret; moreover every
access token issued by a successful `authenticate` carries
`ver` equal to the authenticated user's current `token_version`. -/
theorem access_token_claim_set :
    (∀ (secret : String) (now ttl user_id token_version : Nat)
        (extra : List (String × String)),
      (create_access_token secret now ttl user_id token_version extra).payload =
        ⟨user_id, "access", now, now + ttl, token_version, extra⟩ ∧
      (create_access_token secret now ttl user_id token_version extra).sig =
        macSign secret
          (create_access_token secret now ttl user_id token_version extra).payload) ∧
    (∀ (H : PasswordHasher) (secret : String)
        (now ttlAccess ttlRefresh : Nat) (users : List UserRec)
        (ts : List RefreshTokenRec) (freshFam freshRid : Nat)
        (entropy email password : String) (acc : SignedToken)
        (raw : String) (u' : UserRec),
      (authenticate H secret now ttlAccess ttlRefresh users ts freshFam
          freshRid entropy email password).2 =
        Except.ok (acc, raw, u') →
      acc = create_access_token secret now ttlAccess u'.id u'.token_version [] ∧
      acc.payload.ver = u'.token_version) := by
  constructor
  · intro secret now ttl user_id token_version extra
    exact ⟨rfl, rfl⟩
  · intro H secret now ttlAccess ttlRefresh users ts freshFam freshRid
      entropy email password acc raw u' h
    cases hu : get_by_email users email with
    | none => simp [authenticate, hu] at h
    | some user =>
      by_cases hv : (verify_password_with_timing_safety H password
          (some user.hashed_password)).1.1 = false
      · simp [authenticate, hu, hv] at h
      · by_cases hin : user.is_active = false
        · simp [authenticate, hu, hv, hin] at h
        · cases hnh : (verify_password_with_timing_safety H password
              (some user.hashed_password)).1.2 with
          | none =>
            simp [authenticate, hu, hv, hin, hnh] at h
            obtain ⟨rfl, -, rfl⟩ := h
            exact ⟨rfl, rfl⟩
          | some nh =>
            simp [authenticate, hu, hv, hin, hnh, update_password] at h
            obtain ⟨rfl, -, rfl⟩ := h
            exact ⟨rfl, rfl⟩

theorem access_token_claim_set_witness :
    (create_access_token "s" 0 10 1 0 []).payload.ver =
      demoUser.token_version :=
  (access_token_claim_set.2 toyHasher "s" 0 10 100 [demoUser] [] 7 11 "ent"
      "alice@example.com" "Passw0rd!" (create_access_token "s" 0 10 1 0 [])
      "ent" demoUser rfl).2

/-- C5: the current-user resolution path rejects a decodable access
token whose `type` claim differs from "access", and likewise one whose
`ver` claim differs from the owning user's current `token_version`;
both rejections produce a `TokenError` (401). -/
theorem get_current_user_rejects (secret : String) (now : Nat)
    (users : List UserRec) (t : SignedToken)
    (hsig : t.sig = macSign secret t.payload)
    (hexp : now < t.payload.exp)
    (hbad : t.payload.type ≠ "access" ∨
      (t.payload.type = "access" ∧ ∃ u,
        get_by_id users t.payload.sub = some u ∧
        t.payload.ver ≠ u.token_version)) :
    ∃ m, get_current_user secret now users t =
      Except.error (tokenErrorExc m) := by
  have hdec : decode_access_token secret now t = Except.ok t.payload := by
    simp [decode_access_token, hsig, Nat.not_le.mpr hexp]
  rcases hbad with htype | ⟨htype, u, hu, hver⟩
  · exact ⟨"Invalid token type", by simp [get_current_user, hdec, htype]⟩
  · exact ⟨"Token version mismatch",
      by simp [get_current_user, hdec, htype, hu, hver]⟩

theorem get_current_user_rejects_witness :
    ∃ m, get_current_user "s" 0 []
        ⟨⟨1, "refresh", 0, 10, 0, []⟩,
          macSign "s" ⟨1, "refresh", 0, 10, 0, []⟩⟩ =
      Except.error (tokenErrorExc m) :=
  get_current_user_rejects "s" 0 []
    ⟨⟨1, "refresh", 0, 10, 0, []⟩, macSign "s" ⟨1, "refresh", 0, 10, 0, []⟩⟩
    rfl (by decide) (Or.inl (by decide))

theorem logout_all_spec_witness :
    (⟨1, "access", 0, 10, 0, []⟩ : AccessClaims).ver ≠
      (logout_all 0 [] [] ⟨1, "alice@example.com", "h", true, 0⟩).1.2.token_version :=
  (logout_all_spec 0 [] [] ⟨1, "alice@example.com", "h", true, 0⟩).2.2.2.2
    ⟨1, "access", 0, 10, 0, []⟩ rfl

end FullstackTemplate
